import Mathlib

/-!
Verification of the OffsetGuided repository glue layer: COCO constant tables
(src/config/coco_data_copy.py) and checkpoint / network utilities
(src/models/networks.py), embedded shallowly and checked against the spec.
-/

set_option maxRecDepth 4000
set_option maxHeartbeats 1000000

namespace OffsetGuided

/-! ## COCO constant tables, from src/config/coco_data_copy.py.
Skeleton edges are pairs of Python ints, modelled as `Int × Int`. -/

def COCO_PERSON_SKELETON : List (Int × Int) := [
  (0, 1), (0, 2), (1, 2), (1, 3), (2, 4), (5, 6), (4, 6), (3, 5),
  (5, 7), (7, 9), (6, 8), (8, 10), (5, 11), (6, 12), (11, 12), (11, 13),
  (13, 15), (12, 14), (14, 16)]

def COCO_PERSON_SKELETON_DOWNUP : List (Int × Int) := [
  (15, 13), (13, 11), (16, 14), (14, 12), (11, 12), (5, 11), (6, 12),
  (5, 6), (5, 7), (6, 8), (7, 9), (8, 10), (1, 2),
  (0, 1), (0, 2), (1, 3), (2, 4), (3, 5), (4, 6)]

def COCO_PERSON_WITH_REDUNDANT_SKELETON : List (Int × Int) := [
  (0, 1), (0, 2), (1, 2), (1, 3), (2, 4), (5, 6), (4, 6), (3, 5),
  (5, 7), (7, 9), (6, 8), (8, 10), (5, 11), (6, 12), (11, 12), (11, 13),
  (13, 15), (12, 14), (14, 16),
  (1, 5), (2, 6), (5, 12), (6, 11), (11, 14), (12, 13),
  (5, 9), (6, 10), (11, 15), (12, 16),
  (5, 0), (6, 0)]

def DENSER_COCO_PERSON_SKELETON : List (Int × Int) := [
  (0, 1), (0, 2), (1, 2), (0, 3), (0, 4), (3, 4), (0, 5), (0, 6), (1, 5),
  (2, 6), (1, 3), (2, 4), (3, 5), (4, 6), (5, 6), (5, 11), (6, 12), (5, 12),
  (6, 11), (11, 12), (5, 7), (6, 8), (7, 9), (8, 10), (5, 9), (6, 10), (7, 8),
  (9, 10), (9, 11), (10, 12), (9, 13), (10, 14), (13, 11), (14, 12),
  (11, 14), (12, 13), (11, 15), (12, 16), (15, 13), (16, 14),
  (13, 16), (14, 15), (13, 14), (15, 16)]

def REDUNDANT_CONNECTIONS : List (Int × Int) :=
  DENSER_COCO_PERSON_SKELETON.filter (fun c => !(COCO_PERSON_SKELETON.contains c))

def KINEMATIC_TREE_SKELETON : List (Int × Int) := [
  (0, 1), (1, 3),
  (0, 2), (2, 4),
  (0, 5),
  (5, 7), (7, 9),
  (0, 6),
  (6, 8), (8, 10),
  (5, 11), (11, 13), (13, 15),
  (6, 12), (12, 14), (14, 16)]

def COCO_KEYPOINTS : List String := [
  "nose",
  "left_eye",
  "right_eye",
  "left_ear",
  "right_ear",
  "left_shoulder",
  "right_shoulder",
  "left_elbow",
  "right_elbow",
  "left_wrist",
  "right_wrist",
  "left_hip",
  "right_hip",
  "left_knee",
  "right_knee",
  "left_ankle",
  "right_ankle"]

/-- Per-keypoint sigmas; the Python floats are exact decimals, modelled in ℚ. -/
def COCO_PERSON_SIGMAS : List ℚ := [
  26/1000,
  25/1000,
  25/1000,
  35/1000,
  35/1000,
  79/1000,
  79/1000,
  72/1000,
  72/1000,
  62/1000,
  62/1000,
  107/1000,
  107/1000,
  87/1000,
  87/1000,
  89/1000,
  89/1000]

/-! ## String primitives.
Python string operations used by networks.py, modelled on code-point lists:
`pat in s`, `s.startswith(pat)` and the slice `s[7:]`. -/

/-- `startsWithL s pat` : `pat` is a prefix of `s` (Python s.startswith). -/
def startsWithL : List Char → List Char → Bool
  | _, [] => true
  | [], _ :: _ => false
  | c :: s, p :: pat => c = p && startsWithL s pat

/-- `containsL s pat` : `pat` occurs as a contiguous substring of `s`
(Python `pat in s`). -/
def containsL : List Char → List Char → Bool
  | [], pat => pat.isEmpty
  | c :: s, pat => startsWithL (c :: s) pat || containsL s pat

def strContains (s pat : String) : Bool := containsL s.toList pat.toList

def strStartsWith (s pat : String) : Bool := startsWithL s.toList pat.toList

/-- Python slice `s[n:]` by code points. -/
def strDrop (s : String) (n : Nat) : String := String.mk (s.toList.drop n)

/-! ## Tensors and state dicts.
A torch tensor is modelled by its shape and its flat contents (plus a device
flag for `.cuda()`); a state dict is an insertion-ordered dict from parameter
names to tensors, modelled as an association list with unique keys. -/

structure Tensor where
  shape : List Nat
  data : List Int
  isCuda : Bool
deriving DecidableEq, Repr

/-- Move a tensor to the GPU (torch `.cuda()`): same shape and values. -/
def Tensor.toCuda (t : Tensor) : Tensor := ⟨t.shape, t.data, true⟩

abbrev StateDict := List (String × Tensor)

/-- First-match lookup, `d[k]` on a dict whose keys are unique. -/
def lookupSD : StateDict → String → Option Tensor
  | [], _ => none
  | kv :: rest, k => if kv.1 = k then some kv.2 else lookupSD rest k

/-- Python `k in d`. -/
def containsKey (d : StateDict) (k : String) : Bool := (lookupSD d k).isSome

/-- Python `d[k] = v` on a dict: update in place if the key exists,
append at the end otherwise. -/
def dictInsert (d : StateDict) (k : String) (v : Tensor) : StateDict :=
  if containsKey d k then
    d.map (fun kv => if kv.1 = k then (k, v) else kv)
  else d ++ [(k, v)]

/-! ## load_model (src/models/networks.py lines 11-101), piece by piece. -/

/-- The first loop of load_model (lines 42-51): convert a parallel /
distributed checkpoint state dict to a single-model one, dropping the
regression/offset output layers when `drop_layers` is set. -/
def convertGo (drop_layers : Bool) (acc : StateDict) : StateDict → StateDict
  | [] => acc
  | (k, v) :: rest =>
    if (strContains k "before_regression" || strContains k "offset") && drop_layers then
      convertGo drop_layers acc rest
    else if strStartsWith k "module" && !(strStartsWith k "module_list") then
      convertGo drop_layers (dictInsert acc (strDrop k 7) v) rest
    else
      convertGo drop_layers (dictInsert acc k v) rest

def convertStateDict (drop_layers : Bool) (sd : StateDict) : StateDict :=
  convertGo drop_layers [] sd

/-- The second loop of load_model (lines 58-68): for every loaded key that the
model also has but with a different shape, overwrite the loaded tensor with
the model's own parameter. Keys the model lacks are only logged. -/
def fixShapes (sd model_state_dict : StateDict) : StateDict :=
  sd.map (fun kv =>
    match lookupSD model_state_dict kv.1 with
    | some t => if kv.2.shape ≠ t.shape then (kv.1, t) else kv
    | none => kv)

/-- The third loop of load_model (lines 69-72): append, from the model itself,
every model parameter missing from the loaded dict. -/
def appendMissing (sd : StateDict) : StateDict → StateDict
  | [] => sd
  | kv :: rest =>
    appendMissing (if containsKey sd kv.1 then sd else sd ++ [kv]) rest

/-- torch nn.Module.load_state_dict with strict=False, modelled on the dict
level: each model parameter takes the loaded value when present with a
matching shape; unexpected keys are ignored. -/
def loadStateDict (model_state_dict sd : StateDict) : StateDict :=
  model_state_dict.map (fun kv =>
    match lookupSD sd kv.1 with
    | some t => if t.shape = kv.2.shape then (kv.1, t) else kv
    | none => kv)

/-! ## Optimizer and checkpoint. -/

/-- A value held in an optimizer state entry: a tensor, or a non-tensor
scalar (e.g. a step count), distinguished by torch.is_tensor. -/
inductive OptVal where
  | tensor (t : Tensor)
  | scalar (n : Int)
deriving DecidableEq, Repr

/-- The cuda move of load_model lines 86-89: only tensor values move. -/
def OptVal.toCuda : OptVal → OptVal
  | .tensor t => .tensor t.toCuda
  | .scalar n => .scalar n

/-- optimizer.state : per-parameter state dicts. -/
abbrev OptState := List (String × List (String × OptVal))

structure Optimizer where
  state : OptState
deriving DecidableEq, Repr

def Optimizer.load_state_dict (_o : Optimizer) (sd : OptState) : Optimizer := ⟨sd⟩

def Optimizer.state_dict (o : Optimizer) : OptState := o.state

def Optimizer.toCuda (o : Optimizer) : Optimizer :=
  ⟨o.state.map (fun p => (p.1, p.2.map (fun kv => (kv.1, kv.2.toCuda))))⟩

/-- The dict written by save_model and read back by load_model. train_loss is
a float in the source; the values written are exact decimals, modelled in ℚ. -/
structure Checkpoint where
  epoch : Int
  train_loss : ℚ
  model_state_dict : StateDict
  optimizer_state_dict : Option OptState
deriving DecidableEq

/-- A model, seen through the only interface load_model uses: its state dict. -/
abbrev Model := StateDict

structure LoadResult where
  model : Model
  optimizer : Option Optimizer
  start_epoch : Int
deriving DecidableEq

/-- load_model (networks.py lines 11-101). The filesystem is a map from paths
to the checkpoint torch.load would return; os.path.isfile failing is `none`.
`cuda_available` stands for torch.cuda.is_available(). -/
def load_model (model : Model) (fs : String → Option Checkpoint) (ckpt_path : String)
    (optimizer : Option Optimizer)
    (drop_layers resume_optimizer optimizer2cuda cuda_available : Bool) : LoadResult :=
  match fs ckpt_path with
  | none => ⟨model, none, 0⟩
  | some checkpoint =>
    let state_dict := convertStateDict drop_layers checkpoint.model_state_dict
    let model_state_dict := model
    let state_dict := fixShapes state_dict model_state_dict
    let state_dict := appendMissing state_dict model_state_dict
    let model1 := loadStateDict model state_dict
    match optimizer with
    | some opt =>
      if resume_optimizer then
        match checkpoint.optimizer_state_dict with
        | some osd =>
          let opt1 := Optimizer.load_state_dict opt osd
          let opt2 := if cuda_available && optimizer2cuda then opt1.toCuda else opt1
          ⟨model1, some opt2, checkpoint.epoch + 1⟩
        | none => ⟨model1, some opt, 0⟩
      else ⟨model1, none, 0⟩
    | none => ⟨model1, none, 0⟩

/-- A model as save_model receives it: either a plain module or a
(Distributed)DataParallel wrapper, whose .module holds the underlying model. -/
inductive TorchModel where
  | plain (m : Model)
  | dataParallel (m : Model)

/-- save_model (networks.py lines 104-116): the checkpoint dict passed to
torch.save. For a parallel wrapper the inner module's state dict is saved. -/
def save_model (epoch : Int) (train_loss : ℚ) (model : TorchModel)
    (optimizer : Option Optimizer) : Checkpoint :=
  let state_dict := match model with
    | .dataParallel m => m
    | .plain m => m
  ⟨epoch, train_loss, state_dict, optimizer.map Optimizer.state_dict⟩

/-! ## initialize_weights (networks.py lines 119-142). -/

/-- The module kinds initialize_weights distinguishes. Conv2d bias may be
absent (bias=False when BN follows). -/
inductive Module where
  | conv2d (weight : Tensor) (bias : Option Tensor)
  | batchNorm2d (weight : Tensor) (bias : Tensor)
  | linear (weight : Tensor) (bias : Tensor)
  | other

def Tensor.zeroed (t : Tensor) : Tensor := ⟨t.shape, t.data.map (fun _ => 0), t.isCuda⟩

def Tensor.filledOne (t : Tensor) : Tensor := ⟨t.shape, t.data.map (fun _ => 1), t.isCuda⟩

/-- initialize_weights: conv weights get N(0, 0.001) samples, linear weights
N(0, 0.01), BN weights are filled with 1, biases zeroed. The random source is
an environment parameter giving the sampled tensor for a mean and std. -/
def initialize_weights (sampleNormal : ℚ → ℚ → Tensor → Tensor)
    (model : List Module) : List Module :=
  model.map (fun m =>
    match m with
    | .conv2d w b => .conv2d (sampleNormal 0 (1/1000) w) (b.map Tensor.zeroed)
    | .batchNorm2d w b => .batchNorm2d w.filledOne b.zeroed
    | .linear w b => .linear (sampleNormal 0 (1/100) w) b.zeroed
    | .other => .other)

/-! ## NetworkWrap (networks.py lines 145-160). -/

structure NetworkWrap (I F O : Type) where
  basenet : I → F
  headnets : List (F → O)

/-- NetworkWrap.forward: run the basenet, then every headnet on its output. -/
def NetworkWrap.forward {I F O : Type} (net : NetworkWrap I F O) (img_tensor : I) :
    List O :=
  let feature_tuple := net.basenet img_tensor
  net.headnets.map (fun hn => hn feature_tuple)

/-! ## basenet_factory (networks.py lines 163-186). -/

inductive BaseNet where
  | hourglass104
deriving DecidableEq, Repr

inductive FactoryError where
  | assertionError (msg : String)
  | exception (msg : String)
deriving DecidableEq, Repr

/-- basenet_factory. The assert restricts the name to two values; the two
branches then test by substring containment. 'hourglass4stage' passes the
assert but unconditionally raises; if neither branch fired the Python
function would fall through returning None, hence the `Option`. -/
def basenet_factory (basenet_name : String) :
    Except FactoryError (Option (BaseNet × Nat × Nat × Nat)) :=
  if !(basenet_name = "hourglass104" || basenet_name = "hourglass4stage") then
    .error (.assertionError (basenet_name ++ " is not implemented."))
  else if strContains basenet_name "hourglass104" then
    .ok (some (.hourglass104, 2, 4, 256))
  else if strContains basenet_name "hourglass4stage" then
    .error (.exception ("Unknown base network in " ++ basenet_name))
  else
    .ok none

/-! ## Module-level globals, for the frame claim.
The state of the coco_data_copy module: every table it defines at top level.
Each repository operation is lifted to a function threading this state; the
source never assigns any of these names, it only reads them. -/

structure Globals where
  coco_person_skeleton : List (Int × Int)
  coco_person_skeleton_downup : List (Int × Int)
  coco_person_with_redundant_skeleton : List (Int × Int)
  denser_coco_person_skeleton : List (Int × Int)
  redundant_connections : List (Int × Int)
  kinematic_tree_skeleton : List (Int × Int)
  coco_keypoints : List String
  coco_person_sigmas : List ℚ

def initGlobals : Globals :=
  ⟨COCO_PERSON_SKELETON, COCO_PERSON_SKELETON_DOWNUP,
    COCO_PERSON_WITH_REDUNDANT_SKELETON, DENSER_COCO_PERSON_SKELETON,
    REDUNDANT_CONNECTIONS, KINEMATIC_TREE_SKELETON,
    COCO_KEYPOINTS, COCO_PERSON_SIGMAS⟩

def loadModelG (g : Globals) (model : Model) (fs : String → Option Checkpoint)
    (ckpt_path : String) (optimizer : Option Optimizer)
    (drop_layers resume_optimizer optimizer2cuda cuda_available : Bool) :
    Globals × LoadResult :=
  (g, load_model model fs ckpt_path optimizer drop_layers resume_optimizer
    optimizer2cuda cuda_available)

def saveModelG (g : Globals) (epoch : Int) (train_loss : ℚ) (model : TorchModel)
    (optimizer : Option Optimizer) : Globals × Checkpoint :=
  (g, save_model epoch train_loss model optimizer)

def initializeWeightsG (g : Globals) (sampleNormal : ℚ → ℚ → Tensor → Tensor)
    (model : List Module) : Globals × List Module :=
  (g, initialize_weights sampleNormal model)

def forwardG {I F O : Type} (g : Globals) (net : NetworkWrap I F O) (img : I) :
    Globals × List O :=
  (g, net.forward img)

/-- print_associations (coco_data_copy.py lines 147-150): reads the skeleton
and the keypoint names, printing the connection count and the name pairs. -/
def printAssociationsG (g : Globals) : Globals × (Nat × List (String × String)) :=
  (g, (g.coco_person_skeleton.length,
    g.coco_person_skeleton.map (fun e =>
      (g.coco_keypoints.getD e.1.toNat "", g.coco_keypoints.getD e.2.toNat ""))))

/-- draw_skeletons (coco_data_copy.py lines 108-144): draws three canvases,
each from one of the skeleton tables; modelled by the files written and the
skeleton each is drawn from. -/
def drawSkeletonsG (g : Globals) : Globals × List (String × List (Int × Int)) :=
  (g, [("../docs/skeleton_coco.png", g.coco_person_skeleton),
    ("../docs/skeleton_kinematic_tree.png", g.kinematic_tree_skeleton),
    ("../docs/skeleton_coco_redundant.png", g.coco_person_with_redundant_skeleton)])

/-! ## Specification-side definitions (used for refinement statements). -/

/-- The per-entry remapping of claim C1, written from the claim: entries of
dropped layers are omitted; keys starting with 'module' but not 'module_list'
lose their first 7 characters; all other entries are kept unchanged. -/
def specRemapEntry (drop_layers : Bool) (kv : String × Tensor) :
    Option (String × Tensor) :=
  if drop_layers &&
      (strContains kv.1 "before_regression" || strContains kv.1 "offset") then
    none
  else if strStartsWith kv.1 "module" && !(strStartsWith kv.1 "module_list") then
    some (strDrop kv.1 7, kv.2)
  else
    some (kv.1, kv.2)

/-- The names the kept entries of a checkpoint dict are stored under. -/
def storedNames (drop_layers : Bool) (sd : StateDict) : List String :=
  (sd.filterMap (specRemapEntry drop_layers)).map Prod.fst

/-! ## Claims C7, C8, C9 about the tables. -/

/-- C7: the keypoint-name table and the sigma table each have exactly 17 entries. -/
theorem keypoint_and_sigma_tables_length_17 :
    COCO_KEYPOINTS.length = 17 ∧ COCO_PERSON_SIGMAS.length = 17 :=
  ⟨rfl, rfl⟩

/-- C8: every edge of every skeleton table has both endpoints in range [0, 17),
so it refers to a valid entry of the 17-keypoint table. -/
theorem skeleton_edges_in_range :
    ∀ e ∈ COCO_PERSON_SKELETON ++ COCO_PERSON_SKELETON_DOWNUP ++
        COCO_PERSON_WITH_REDUNDANT_SKELETON ++ DENSER_COCO_PERSON_SKELETON ++
        KINEMATIC_TREE_SKELETON,
      0 ≤ e.1 ∧ e.1 < 17 ∧ 0 ≤ e.2 ∧ e.2 < 17 := by
  decide

/-- C8 witness: the first edge of the COCO skeleton is in range. -/
theorem skeleton_edges_in_range_witness :
    0 ≤ (0 : Int) ∧ (0 : Int) < 17 ∧ 0 ≤ (1 : Int) ∧ (1 : Int) < 17 :=
  skeleton_edges_in_range (0, 1) (by decide)

/-- C9 counterexample: (5, 6) is an edge of COCO_PERSON_SKELETON_DOWNUP, yet
(6, 5) is not an edge of COCO_PERSON_SKELETON, so DOWNUP is not the edgewise
reversal of the COCO skeleton. -/
theorem downup_not_edgewise_reversal :
    (5, 6) ∈ COCO_PERSON_SKELETON_DOWNUP ∧ (6, 5) ∉ COCO_PERSON_SKELETON := by
  decide

/-- Two directed edge lists describe the same undirected graph as soon as each
is contained, up to swapping, in the other. -/
lemma sameUndirected (L1 L2 : List (Int × Int))
    (h1 : ∀ e ∈ L1, e ∈ L2 ∨ (e.2, e.1) ∈ L2)
    (h2 : ∀ e ∈ L2, e ∈ L1 ∨ (e.2, e.1) ∈ L1) :
    ∀ a b : Int, ((a, b) ∈ L1 ∨ (b, a) ∈ L1) ↔ ((a, b) ∈ L2 ∨ (b, a) ∈ L2) := by
  intro a b
  constructor
  · rintro (h | h)
    · exact h1 (a, b) h
    · exact (h1 (b, a) h).symm
  · rintro (h | h)
    · exact h2 (a, b) h
    · exact (h2 (b, a) h).symm

/-- C9 (amended): both lists have 19 edges and they describe the same
undirected skeleton: a pair occurs (in some orientation) in
COCO_PERSON_SKELETON_DOWNUP iff it occurs (in some orientation) in
COCO_PERSON_SKELETON. -/
theorem downup_same_undirected_skeleton :
    COCO_PERSON_SKELETON_DOWNUP.length = 19 ∧
    COCO_PERSON_SKELETON.length = 19 ∧
    ∀ a b : Int,
      ((a, b) ∈ COCO_PERSON_SKELETON_DOWNUP ∨ (b, a) ∈ COCO_PERSON_SKELETON_DOWNUP) ↔
      ((a, b) ∈ COCO_PERSON_SKELETON ∨ (b, a) ∈ COCO_PERSON_SKELETON) := by
  refine ⟨rfl, rfl,
    sameUndirected COCO_PERSON_SKELETON_DOWNUP COCO_PERSON_SKELETON ?_ ?_⟩ <;> decide

/-! ## Claims C5, C6. -/

/-- C5: basenet_factory asserts the name is one of the two hourglass names,
returns (model, 2, 4, 256) for hourglass104, unconditionally raises for
hourglass4stage although the assertion passes, and fails the assertion for
every other name; it returns successfully only for hourglass104. -/
theorem basenet_factory_spec :
    basenet_factory "hourglass104" =
      .ok (some (BaseNet.hourglass104, 2, 4, 256)) ∧
    (∃ msg, basenet_factory "hourglass4stage" = .error (.exception msg)) ∧
    (∀ s, s ≠ "hourglass104" → s ≠ "hourglass4stage" →
      ∃ msg, basenet_factory s = .error (.assertionError msg)) ∧
    (∀ s r, basenet_factory s = .ok r → s = "hourglass104") := by
  refine ⟨rfl, ⟨"Unknown base network in hourglass4stage", rfl⟩, ?_, ?_⟩
  · intro s h1 h2
    refine ⟨s ++ " is not implemented.", ?_⟩
    simp [basenet_factory, h1, h2]
  · intro s r h
    by_cases h1 : s = "hourglass104"
    · exact h1
    · by_cases h2 : s = "hourglass4stage"
      · subst h2
        have he : basenet_factory "hourglass4stage" =
            Except.error (FactoryError.exception
              "Unknown base network in hourglass4stage") := rfl
        rw [he] at h
        exact Except.noConfusion h
      · simp [basenet_factory, h1, h2] at h

/-- C5 witness: the assertion fails on a concrete unknown name, and the
successful concrete call is for hourglass104. -/
theorem basenet_factory_spec_witness :
    (∃ msg, basenet_factory "resnet50" = .error (.assertionError msg)) ∧
    "hourglass104" = "hourglass104" :=
  ⟨basenet_factory_spec.2.2.1 "resnet50" (by decide) (by decide),
    basenet_factory_spec.2.2.2 "hourglass104"
      (some (BaseNet.hourglass104, 2, 4, 256)) rfl⟩

/-- C6: NetworkWrap.forward applies the basenet to the input and then every
headnet to the resulting feature, returning the outputs in headnet order,
one per headnet. -/
theorem networkwrap_forward_applies_heads {I F O : Type}
    (net : NetworkWrap I F O) (img : I) :
    (net.forward img).length = net.headnets.length ∧
    ∀ i : Nat, (net.forward img).get? i =
      (net.headnets.get? i).map (fun hn => hn (net.basenet img)) := by
  constructor
  · simp [NetworkWrap.forward]
  · intro i
    simp [NetworkWrap.forward, List.get?_eq_getElem?, List.getElem?_map]

/-! ## Lookup lemmas for the state-dict pipeline. -/

lemma lookupSD_cons (kv : String × Tensor) (rest : StateDict) (k : String) :
    lookupSD (kv :: rest) k = if kv.1 = k then some kv.2 else lookupSD rest k := rfl

lemma containsKey_eq_false {d : StateDict} {k : String} :
    containsKey d k = false ↔ lookupSD d k = none := by
  unfold containsKey
  cases lookupSD d k <;> simp

lemma lookupSD_append_left {a : StateDict} (b : StateDict) {k : String} {v : Tensor}
    (h : lookupSD a k = some v) : lookupSD (a ++ b) k = some v := by
  induction a with
  | nil => simp [lookupSD] at h
  | cons kv rest ih =>
    rw [List.cons_append, lookupSD_cons]
    rw [lookupSD_cons] at h
    by_cases hk : kv.1 = k
    · simpa [hk] using h
    · rw [if_neg hk] at h ⊢
      exact ih h

lemma lookupSD_append_right {a : StateDict} (b : StateDict) {k : String}
    (h : lookupSD a k = none) : lookupSD (a ++ b) k = lookupSD b k := by
  induction a with
  | nil => rfl
  | cons kv rest ih =>
    rw [lookupSD_cons] at h
    by_cases hk : kv.1 = k
    · simp [hk] at h
    · rw [List.cons_append, lookupSD_cons, if_neg hk]
      rw [if_neg hk] at h
      exact ih h

lemma appendMissing_exists_suffix :
    ∀ (m sd : StateDict), ∃ extra, appendMissing sd m = sd ++ extra := by
  intro m
  induction m with
  | nil => exact fun sd => ⟨[], by simp [appendMissing]⟩
  | cons kv rest ih =>
    intro sd
    unfold appendMissing
    by_cases hc : containsKey sd kv.1
    · rw [if_pos hc]
      exact ih sd
    · rw [if_neg hc]
      obtain ⟨extra, he⟩ := ih (sd ++ [kv])
      exact ⟨[kv] ++ extra, by rw [he, List.append_assoc]⟩

lemma lookupSD_appendMissing_of_some {m sd : StateDict} {k : String} {v : Tensor}
    (h : lookupSD sd k = some v) : lookupSD (appendMissing sd m) k = some v := by
  obtain ⟨extra, he⟩ := appendMissing_exists_suffix m sd
  rw [he]
  exact lookupSD_append_left extra h

lemma lookupSD_appendMissing_of_none :
    ∀ (m sd : StateDict) (k : String) (v : Tensor), lookupSD sd k = none →
      lookupSD m k = some v → lookupSD (appendMissing sd m) k = some v := by
  intro m
  induction m with
  | nil => intro sd k v _ hm; simp [lookupSD] at hm
  | cons kv rest ih =>
    intro sd k v hsd hm
    rw [lookupSD_cons] at hm
    unfold appendMissing
    by_cases hk : kv.1 = k
    · rw [if_pos hk] at hm
      have hc : containsKey sd kv.1 = false := by
        rw [containsKey_eq_false, hk]; exact hsd
      rw [hc]
      simp only [Bool.false_eq_true, if_false]
      have hsd2 : lookupSD (sd ++ [kv]) k = some v := by
        rw [lookupSD_append_right _ hsd, lookupSD_cons, if_pos hk, hm]
      exact lookupSD_appendMissing_of_some hsd2
    · rw [if_neg hk] at hm
      by_cases hc : containsKey sd kv.1
      · rw [if_pos hc]
        exact ih sd k v hsd hm
      · rw [if_neg hc]
        have hsd2 : lookupSD (sd ++ [kv]) k = none := by
          rw [lookupSD_append_right _ hsd, lookupSD_cons, if_neg hk]
          rfl
        exact ih (sd ++ [kv]) k v hsd2 hm

lemma fixShapes_cons (kv : String × Tensor) (rest m : StateDict) :
    fixShapes (kv :: rest) m =
      (match lookupSD m kv.1 with
        | some t => if kv.2.shape ≠ t.shape then (kv.1, t) else kv
        | none => kv) :: fixShapes rest m := rfl

lemma lookupSD_fixShapes_none :
    ∀ (sd m : StateDict) (k : String), lookupSD sd k = none →
      lookupSD (fixShapes sd m) k = none := by
  intro sd
  induction sd with
  | nil => intro m k _; rfl
  | cons kv rest ih =>
    intro m k h
    rw [lookupSD_cons] at h
    by_cases hk : kv.1 = k
    · simp [hk] at h
    · rw [if_neg hk] at h
      have hr := ih m k h
      rw [fixShapes_cons, lookupSD_cons]
      cases hm : lookupSD m kv.1 with
      | none => simpa [hk] using hr
      | some t =>
        by_cases hs : kv.2.shape ≠ t.shape <;> simpa [hs, hk] using hr

lemma lookupSD_fixShapes_some :
    ∀ (sd m : StateDict) (k : String) (v : Tensor), lookupSD sd k = some v →
      lookupSD (fixShapes sd m) k =
        some (match lookupSD m k with
          | some t => if v.shape ≠ t.shape then t else v
          | none => v) := by
  intro sd
  induction sd with
  | nil => intro m k v h; simp [lookupSD] at h
  | cons kv rest ih =>
    intro m k v h
    rw [lookupSD_cons] at h
    rw [fixShapes_cons, lookupSD_cons]
    by_cases hk : kv.1 = k
    · rw [if_pos hk] at h
      injection h with hv
      subst hk
      subst hv
      cases hm : lookupSD m kv.1 with
      | none => simp
      | some t => by_cases hs : kv.2.shape ≠ t.shape <;> simp [hs]
    · rw [if_neg hk] at h
      have hrest := ih m k v h
      cases hm : lookupSD m kv.1 with
      | none => simpa [hk] using hrest
      | some t =>
        by_cases hs : kv.2.shape ≠ t.shape <;> simpa [hs, hk] using hrest

lemma loadStateDict_cons (kv : String × Tensor) (rest sd : StateDict) :
    loadStateDict (kv :: rest) sd =
      (match lookupSD sd kv.1 with
        | some t => if t.shape = kv.2.shape then (kv.1, t) else kv
        | none => kv) :: loadStateDict rest sd := rfl

lemma lookupSD_loadStateDict_some :
    ∀ (m sd : StateDict) (k : String) (v : Tensor), lookupSD m k = some v →
      lookupSD (loadStateDict m sd) k =
        some (match lookupSD sd k with
          | some t => if t.shape = v.shape then t else v
          | none => v) := by
  intro m
  induction m with
  | nil => intro sd k v h; simp [lookupSD] at h
  | cons kv rest ih =>
    intro sd k v h
    rw [lookupSD_cons] at h
    rw [loadStateDict_cons, lookupSD_cons]
    by_cases hk : kv.1 = k
    · rw [if_pos hk] at h
      injection h with hv
      subst hk
      subst hv
      cases hm : lookupSD sd kv.1 with
      | none => simp
      | some t => by_cases hs : t.shape = kv.2.shape <;> simp [hs]
    · rw [if_neg hk] at h
      have hrest := ih sd k v h
      cases hm : lookupSD sd kv.1 with
      | none => simpa [hk] using hrest
      | some t =>
        by_cases hs : t.shape = kv.2.shape <;> simpa [hs, hk] using hrest

/-! ## Claim C2. -/

/-- C2: a missing checkpoint file makes load_model return (model, None, 0)
with the model untouched, and a shape-mismatched checkpoint entry is replaced
by the current model's own parameter instead of raising. -/
theorem load_model_defaults_on_errors :
    (∀ (model : Model) (fs : String → Option Checkpoint) (ckpt_path : String)
        (optimizer : Option Optimizer) (d r oc ca : Bool),
      fs ckpt_path = none →
      load_model model fs ckpt_path optimizer d r oc ca = ⟨model, none, 0⟩) ∧
    (∀ (sd m : StateDict) (k : String) (v t : Tensor),
      lookupSD sd k = some v → lookupSD m k = some t → v.shape ≠ t.shape →
      lookupSD (fixShapes sd m) k = some t) := by
  constructor
  · intro model fs ckpt_path optimizer d r oc ca h
    unfold load_model
    rw [h]
  · intro sd m k v t hsd hm hshape
    rw [lookupSD_fixShapes_some sd m k v hsd, hm]
    simp [hshape]

/-- C2 witness: a concrete missing file and a concrete shape mismatch. -/
theorem load_model_defaults_on_errors_witness :
    load_model [("a", ⟨[2], [1, 2], false⟩)] (fun _ => none) "ckpt.pt"
      none true true true false = ⟨[("a", ⟨[2], [1, 2], false⟩)], none, 0⟩ ∧
    lookupSD (fixShapes [("a", ⟨[2], [1, 2], false⟩)]
      [("a", ⟨[3], [0, 0, 0], false⟩)]) "a" = some ⟨[3], [0, 0, 0], false⟩ :=
  ⟨load_model_defaults_on_errors.1 [("a", ⟨[2], [1, 2], false⟩)] (fun _ => none)
      "ckpt.pt" none true true true false rfl,
    load_model_defaults_on_errors.2 [("a", ⟨[2], [1, 2], false⟩)]
      [("a", ⟨[3], [0, 0, 0], false⟩)] "a" ⟨[2], [1, 2], false⟩
      ⟨[3], [0, 0, 0], false⟩ rfl rfl (by decide)⟩

/-! ## Claim C10. -/

/-- C10: no repository operation modifies the module-level tables; the
threaded module state is returned unchanged by every operation. -/
theorem tables_immutable :
    (∀ (g : Globals) (model : Model) (fs : String → Option Checkpoint)
        (ckpt_path : String) (optimizer : Option Optimizer) (d r oc ca : Bool),
      (loadModelG g model fs ckpt_path optimizer d r oc ca).1 = g) ∧
    (∀ (g : Globals) (epoch : Int) (train_loss : ℚ) (model : TorchModel)
        (optimizer : Option Optimizer),
      (saveModelG g epoch train_loss model optimizer).1 = g) ∧
    (∀ (g : Globals) (sampleNormal : ℚ → ℚ → Tensor → Tensor)
        (model : List Module),
      (initializeWeightsG g sampleNormal model).1 = g) ∧
    (∀ (I F O : Type) (g : Globals) (net : NetworkWrap I F O) (img : I),
      (forwardG g net img).1 = g) ∧
    (∀ g : Globals, (printAssociationsG g).1 = g) ∧
    (∀ g : Globals, (drawSkeletonsG g).1 = g) :=
  ⟨fun _ _ _ _ _ _ _ _ _ => rfl, fun _ _ _ _ _ => rfl, fun _ _ _ => rfl,
    fun _ _ _ _ _ _ => rfl, fun _ => rfl, fun _ => rfl⟩

/-! ## Claim C1: the checkpoint key remapping. -/

lemma containsKey_append (a b : StateDict) (k : String) :
    containsKey (a ++ b) k = (containsKey a k || containsKey b k) := by
  unfold containsKey
  cases ha : lookupSD a k with
  | some v => rw [lookupSD_append_left b ha]; simp
  | none => rw [lookupSD_append_right b ha]; simp

lemma containsKey_singleton {n m : String} (v : Tensor) (h : n ≠ m) :
    containsKey [(n, v)] m = false := by
  simp [containsKey, lookupSD, h]

lemma convertGo_cons (d : Bool) (acc : StateDict) (k : String) (v : Tensor)
    (rest : StateDict) :
    convertGo d acc ((k, v) :: rest) =
      if (strContains k "before_regression" || strContains k "offset") && d then
        convertGo d acc rest
      else if strStartsWith k "module" && !(strStartsWith k "module_list") then
        convertGo d (dictInsert acc (strDrop k 7) v) rest
      else convertGo d (dictInsert acc k v) rest := rfl

lemma dictInsert_of_fresh {acc : StateDict} {n : String} (v : Tensor)
    (h : containsKey acc n = false) : dictInsert acc n v = acc ++ [(n, v)] := by
  unfold dictInsert
  rw [h]
  simp

lemma storedNames_cons (d : Bool) (kv : String × Tensor) (rest : StateDict) :
    storedNames d (kv :: rest) =
      match specRemapEntry d kv with
      | none => storedNames d rest
      | some p => p.1 :: storedNames d rest := by
  unfold storedNames
  rw [List.filterMap_cons]
  cases specRemapEntry d kv <;> simp

lemma convertGo_eq_filterMap :
    ∀ (sd acc : StateDict) (d : Bool),
      (storedNames d sd).Nodup →
      (∀ n ∈ storedNames d sd, containsKey acc n = false) →
      convertGo d acc sd = acc ++ sd.filterMap (specRemapEntry d) := by
  intro sd
  induction sd with
  | nil => intro acc d _ _; simp [convertGo]
  | cons kv rest ih =>
    intro acc d hnd hfresh
    obtain ⟨k, v⟩ := kv
    by_cases hdrop :
        ((strContains k "before_regression" || strContains k "offset") && d) = true
    · have hd : (d && (strContains k "before_regression" ||
          strContains k "offset")) = true := by
        rw [Bool.and_comm]; exact hdrop
      have hspec : specRemapEntry d (k, v) = none := by
        simp [specRemapEntry, hd]
      rw [convertGo_cons, if_pos hdrop]
      rw [List.filterMap_cons, hspec]
      rw [storedNames_cons, hspec] at hnd hfresh
      exact ih acc d hnd hfresh
    · have hd : (d && (strContains k "before_regression" ||
          strContains k "offset")) = false := by
        rw [Bool.and_comm]
        exact Bool.not_eq_true _ ▸ hdrop
      obtain ⟨n, hspec, hgo⟩ :
          ∃ n, specRemapEntry d (k, v) = some (n, v) ∧
            convertGo d acc ((k, v) :: rest) = convertGo d (dictInsert acc n v) rest := by
        by_cases hmod :
            (strStartsWith k "module" && !(strStartsWith k "module_list")) = true
        · refine ⟨strDrop k 7, ?_, ?_⟩
          · simp [specRemapEntry, hd, hmod]
          · rw [convertGo_cons, if_neg hdrop, if_pos hmod]
        · refine ⟨k, ?_, ?_⟩
          · simp [specRemapEntry, hd, hmod]
          · rw [convertGo_cons, if_neg hdrop, if_neg hmod]
      rw [storedNames_cons, hspec] at hnd hfresh
      have hnmem : n ∉ storedNames d rest := by
        simpa using (List.nodup_cons.mp (by simpa using hnd)).1
      have hnd2 : (storedNames d rest).Nodup := (List.nodup_cons.mp (by simpa using hnd)).2
      have hfn : containsKey acc n = false := hfresh n (by simp)
      have hfresh2 : ∀ x ∈ storedNames d rest,
          containsKey (acc ++ [(n, v)]) x = false := by
        intro x hx
        rw [containsKey_append]
        rw [hfresh x (by simp [hx]), containsKey_singleton v
          (fun he => hnmem (by rw [he]; exact hx))]
        rfl
      rw [hgo, dictInsert_of_fresh v hfn, ih (acc ++ [(n, v)]) d hnd2 hfresh2,
        List.filterMap_cons, hspec, List.append_assoc]
      rfl

/-- C1: for every checkpoint entry, the remapping keeps dropped-layer keys
out when drop_layers is set, strips the first 7 characters of keys starting
with 'module' (but not 'module_list'), and keeps every other key unchanged,
the original tensor accompanying every kept key; i.e. the conversion loop
computes exactly the claim's per-entry filter-map (stated for checkpoints
whose remapped key names do not collide). -/
theorem convert_state_dict_matches_claim (d : Bool) (sd : StateDict)
    (h : (storedNames d sd).Nodup) :
    convertStateDict d sd = sd.filterMap (specRemapEntry d) := by
  have hgo := convertGo_eq_filterMap sd [] d h (fun n _ => rfl)
  simpa [convertStateDict] using hgo

/-- C1 witness: a concrete checkpoint with one entry of each kind. -/
theorem convert_state_dict_matches_claim_witness :
    (storedNames true
      [("module.conv.w", ⟨[3], [1, 2, 3], false⟩),
       ("offset_head.w", ⟨[1], [5], false⟩),
       ("module_list.0.w", ⟨[1], [7], false⟩),
       ("fc.w", ⟨[1], [9], false⟩)]).Nodup ∧
    convertStateDict true
      [("module.conv.w", ⟨[3], [1, 2, 3], false⟩),
       ("offset_head.w", ⟨[1], [5], false⟩),
       ("module_list.0.w", ⟨[1], [7], false⟩),
       ("fc.w", ⟨[1], [9], false⟩)] =
    ([("module.conv.w", ⟨[3], [1, 2, 3], false⟩),
       ("offset_head.w", ⟨[1], [5], false⟩),
       ("module_list.0.w", ⟨[1], [7], false⟩),
       ("fc.w", ⟨[1], [9], false⟩)] : StateDict).filterMap (specRemapEntry true) :=
  ⟨by decide, convert_state_dict_matches_claim true
    [("module.conv.w", ⟨[3], [1, 2, 3], false⟩),
     ("offset_head.w", ⟨[1], [5], false⟩),
     ("module_list.0.w", ⟨[1], [7], false⟩),
     ("fc.w", ⟨[1], [9], false⟩)] (by decide)⟩

/-! ## Claim C4: the merged dict covers the model. -/

/-- C4: after the two fix-up loops, every key of the freshly built model's
state dict is present in the merged dict with the model's required shape. -/
theorem merged_state_dict_covers_model (d : Bool) (csd m : StateDict)
    (k : String) (tm : Tensor) (h : lookupSD m k = some tm) :
    ∃ t, lookupSD (appendMissing (fixShapes (convertStateDict d csd) m) m) k
        = some t ∧ t.shape = tm.shape := by
  cases hsd : lookupSD (convertStateDict d csd) k with
  | none =>
    have h1 := lookupSD_fixShapes_none _ m k hsd
    exact ⟨tm, lookupSD_appendMissing_of_none m _ k tm h1 h, rfl⟩
  | some v =>
    have h1 := lookupSD_fixShapes_some _ m k v hsd
    rw [h] at h1
    dsimp only at h1
    by_cases hs : v.shape ≠ tm.shape
    · rw [if_pos hs] at h1
      exact ⟨tm, lookupSD_appendMissing_of_some h1, rfl⟩
    · rw [if_neg hs] at h1
      push_neg at hs
      exact ⟨v, lookupSD_appendMissing_of_some h1, hs⟩

/-- C4 witness: a model key absent from the checkpoint is appended with the
model's own shape. -/
theorem merged_state_dict_covers_model_witness :
    ∃ t, lookupSD (appendMissing (fixShapes
        (convertStateDict true [("offset.w", ⟨[1], [5], false⟩)])
        [("conv.w", ⟨[2], [1, 2], false⟩)])
        [("conv.w", ⟨[2], [1, 2], false⟩)]) "conv.w"
      = some t ∧ t.shape = [2] :=
  merged_state_dict_covers_model true [("offset.w", ⟨[1], [5], false⟩)]
    [("conv.w", ⟨[2], [1, 2], false⟩)] "conv.w" ⟨[2], [1, 2], false⟩ rfl

/-! ## Claim C3: checkpoint save/load round trip. -/

lemma mem_storedNames_of_lookup :
    ∀ (sd : StateDict) (d : Bool) (k : String) (v : Tensor) (n : String) (w : Tensor),
      lookupSD sd k = some v → specRemapEntry d (k, v) = some (n, w) →
      n ∈ storedNames d sd := by
  intro sd
  induction sd with
  | nil => intro d k v n w h _; simp [lookupSD] at h
  | cons kv rest ih =>
    obtain ⟨k1, v1⟩ := kv
    intro d k v n w h hs
    rw [lookupSD_cons] at h
    rw [storedNames_cons]
    by_cases hk : k1 = k
    · subst hk
      rw [if_pos rfl] at h
      injection h with hv
      subst hv
      rw [hs]
      simp
    · rw [if_neg hk] at h
      have hmem := ih d k v n w h hs
      cases hsp : specRemapEntry d (k1, v1) <;> simp [hmem]

lemma lookupSD_filterMap_spec :
    ∀ (sd : StateDict) (d : Bool) (k : String) (v : Tensor) (n : String),
      (storedNames d sd).Nodup →
      lookupSD sd k = some v →
      specRemapEntry d (k, v) = some (n, v) →
      lookupSD (sd.filterMap (specRemapEntry d)) n = some v := by
  intro sd
  induction sd with
  | nil => intro d k v n _ h _; simp [lookupSD] at h
  | cons kv rest ih =>
    obtain ⟨k1, v1⟩ := kv
    intro d k v n hnd h hs
    rw [lookupSD_cons] at h
    rw [List.filterMap_cons]
    by_cases hk : k1 = k
    · subst hk
      rw [if_pos rfl] at h
      injection h with hv
      subst hv
      rw [hs]
      simp [lookupSD_cons]
    · rw [if_neg hk] at h
      rw [storedNames_cons] at hnd
      cases hsp : specRemapEntry d (k1, v1) with
      | none =>
        rw [hsp] at hnd
        exact ih d k v n (by simpa using hnd) h hs
      | some p =>
        rw [hsp] at hnd
        have hnd2 : (p.1 :: storedNames d rest).Nodup := by simpa using hnd
        have hmem : n ∈ storedNames d rest :=
          mem_storedNames_of_lookup rest d k v n v h hs
        have hne : p.1 ≠ n :=
          fun he => (List.nodup_cons.mp hnd2).1 (by rw [he]; exact hmem)
        rw [lookupSD_cons, if_neg hne]
        exact ih d k v n (List.nodup_cons.mp hnd2).2 h hs

/-- C3 counterexample: a checkpoint written by save_model at epoch 3 holding
parameter 'offset' of shape [2], loaded (with an optimizer, resume on, and
the source's default drop_layers=True) into a model that has the very same
key and shape: start_epoch comes back as 4, but the saved value [1, 2] is
NOT restored - the drop_layers filter discards the key and the receiving
model keeps its own value [9, 9]. -/
theorem save_load_roundtrip_cex :
    (save_model 3 0 (.plain [("offset", ⟨[2], [1, 2], false⟩)])
      (some ⟨[]⟩)).model_state_dict = [("offset", ⟨[2], [1, 2], false⟩)] ∧
    lookupSD [("offset", ⟨[2], [9, 9], false⟩)] "offset"
      = some ⟨[2], [9, 9], false⟩ ∧
    (load_model [("offset", ⟨[2], [9, 9], false⟩)]
      (fun p => if p = "ckpt.pt" then
        some (save_model 3 0 (.plain [("offset", ⟨[2], [1, 2], false⟩)])
          (some ⟨[]⟩)) else none)
      "ckpt.pt" (some ⟨[]⟩) true true true false).start_epoch = 4 ∧
    (load_model [("offset", ⟨[2], [9, 9], false⟩)]
      (fun p => if p = "ckpt.pt" then
        some (save_model 3 0 (.plain [("offset", ⟨[2], [1, 2], false⟩)])
          (some ⟨[]⟩)) else none)
      "ckpt.pt" (some ⟨[]⟩) true true true false).model
      = [("offset", ⟨[2], [9, 9], false⟩)] := by
  refine ⟨rfl, rfl, ?_, ?_⟩ <;> decide

/-- C3 (amended): for every epoch e, loading a checkpoint written by
save_model(path, e, loss, model, optimizer) with an optimizer and
resume_optimizer=True yields start_epoch = e + 1; and every saved parameter
that the key remapping keeps under its own name (not a dropped layer when
drop_layers is set, not a stripped 'module' prefix) and whose key and shape
match the receiving model is restored into it - provided the remapped
checkpoint keys do not collide. -/
theorem save_load_roundtrip_restores_matching (e : Int) (tl : ℚ)
    (m recv : Model) (opt opt2 : Optimizer) (fs : String → Option Checkpoint)
    (path : String) (d oc ca : Bool)
    (hfs : fs path = some (save_model e tl (.plain m) (some opt)))
    (hnames : (storedNames d m).Nodup) :
    (load_model recv fs path (some opt2) d true oc ca).start_epoch = e + 1 ∧
    ∀ (k : String) (v t : Tensor), lookupSD m k = some v →
      specRemapEntry d (k, v) = some (k, v) →
      lookupSD recv k = some t → t.shape = v.shape →
      lookupSD (load_model recv fs path (some opt2) d true oc ca).model k
        = some v := by
  have hmodel : (load_model recv fs path (some opt2) d true oc ca).model =
      loadStateDict recv
        (appendMissing (fixShapes (convertStateDict d m) recv) recv) := by
    unfold load_model
    rw [hfs]
    rfl
  constructor
  · unfold load_model
    rw [hfs]
    rfl
  · intro k v t hm hspec hrecv hshape
    rw [hmodel]
    have hconv : convertStateDict d m = m.filterMap (specRemapEntry d) := by
      have hgo := convertGo_eq_filterMap m [] d hnames (fun n _ => rfl)
      simpa [convertStateDict] using hgo
    have hc : lookupSD (convertStateDict d m) k = some v := by
      rw [hconv]
      exact lookupSD_filterMap_spec m d k v k hnames hm hspec
    have hfix : lookupSD (fixShapes (convertStateDict d m) recv) k = some v := by
      rw [lookupSD_fixShapes_some _ recv k v hc, hrecv]
      simp [hshape]
    have happ : lookupSD
        (appendMissing (fixShapes (convertStateDict d m) recv) recv) k = some v :=
      lookupSD_appendMissing_of_some hfix
    have hload := lookupSD_loadStateDict_some recv
      (appendMissing (fixShapes (convertStateDict d m) recv) recv) k t hrecv
    rw [happ] at hload
    dsimp only at hload
    rw [if_pos (by rw [hshape])] at hload
    exact hload

/-- C3 witness: a concrete save/load at epoch 3 with a parameter the
remapping keeps, restored into a matching receiving model. -/
theorem save_load_roundtrip_restores_matching_witness :
    (load_model [("conv.w", ⟨[2], [9, 9], false⟩)]
      (fun p => if p = "ckpt.pt" then
        some (save_model 3 0 (.plain [("conv.w", ⟨[2], [1, 2], false⟩)])
          (some ⟨[]⟩)) else none)
      "ckpt.pt" (some ⟨[]⟩) true true true false).start_epoch = (3 : Int) + 1 ∧
    lookupSD (load_model [("conv.w", ⟨[2], [9, 9], false⟩)]
      (fun p => if p = "ckpt.pt" then
        some (save_model 3 0 (.plain [("conv.w", ⟨[2], [1, 2], false⟩)])
          (some ⟨[]⟩)) else none)
      "ckpt.pt" (some ⟨[]⟩) true true true false).model "conv.w"
      = some ⟨[2], [1, 2], false⟩ :=
  ⟨(save_load_roundtrip_restores_matching 3 0
      [("conv.w", ⟨[2], [1, 2], false⟩)] [("conv.w", ⟨[2], [9, 9], false⟩)]
      ⟨[]⟩ ⟨[]⟩
      (fun p => if p = "ckpt.pt" then
        some (save_model 3 0 (.plain [("conv.w", ⟨[2], [1, 2], false⟩)])
          (some ⟨[]⟩)) else none)
      "ckpt.pt" true true false rfl (by decide)).1,
    (save_load_roundtrip_restores_matching 3 0
      [("conv.w", ⟨[2], [1, 2], false⟩)] [("conv.w", ⟨[2], [9, 9], false⟩)]
      ⟨[]⟩ ⟨[]⟩
      (fun p => if p = "ckpt.pt" then
        some (save_model 3 0 (.plain [("conv.w", ⟨[2], [1, 2], false⟩)])
          (some ⟨[]⟩)) else none)
      "ckpt.pt" true true false rfl (by decide)).2
      "conv.w" ⟨[2], [1, 2], false⟩ ⟨[2], [9, 9], false⟩ rfl (by decide) rfl rfl⟩

end OffsetGuided
